import Mathlib

/-!
Verification of the patch engine in `core/diff_engine.py`.

The scanner `strip_strings_and_comments` is a character-by-character loop
with an explicit index; we embed it as functions over `List Char`.  The
outer `while` loop carries two flags (`in_block_comment`, `in_line_comment`)
and is embedded as `scanAux`; its inner `while` loops (verbatim/interpolated
strings, ordinary strings, the char-literal lookahead window, template
literals) are embedded as separate functions that return the text they emit
together with the remaining input.  `scanAux` takes a fuel argument equal to
the input length; every loop iteration of the source consumes at least one
input character, so fuel `length l` is never exhausted and the fuel-0 case is
unreachable on the arguments we use.
-/

set_option maxRecDepth 8000
set_option maxHeartbeats 2000000

/-- The backquote character (template-literal delimiter). -/
def bq : Char := Char.ofNat 96

/-- Char-literal lookahead: the source scans positions `i+1 .. min(i+6,len)-1`
for a closing single quote, honouring backslash escapes and stopping at a
newline.  `budget` is the number of positions left in the window (initially 5);
returns the input remaining after the closing quote when one is found. -/
def charLitClose : Nat → List Char → Option (List Char)
  | 0, _ => none
  | _ + 1, [] => none
  | 1, '\\' :: _ => none
  | _ + 2, '\\' :: [] => none
  | b + 2, '\\' :: _ :: r => charLitClose b r
  | _ + 1, '\'' :: r => some r
  | _ + 1, '\n' :: _ => none
  | b + 1, _ :: r => charLitClose b r

/-- Interior of an ordinary double-quoted string: backslash escapes the next
character, newlines are kept, everything else is dropped; returns the kept
characters and the input remaining after the closing quote. -/
def dqRest : List Char → List Char × List Char
  | [] => ([], [])
  | ['\\'] => ([], [])
  | '\\' :: _ :: r => dqRest r
  | '"' :: r => ([], r)
  | '\n' :: r => let p := dqRest r; ('\n' :: p.1, p.2)
  | _ :: r => dqRest r

/-- Interior of a C# verbatim (`@"`), interpolated (`$"`) or verbatim
interpolated (`$@"`/`@$"`) string.  `vb`/`ip` are the `is_verbatim` /
`is_interpolated` flags, `nested` marks the inner loop that skips an ordinary
string inside an interpolation hole, `d` is `interp_depth` (an int in the
source: it may go negative on stray `}`). -/
def viRest : Bool → Bool → Bool → Int → List Char → List Char × List Char
  | _, _, _, _, [] => ([], [])
  | _, _, true, _, ['\\'] => ([], [])
  | vb, ip, true, d, '\\' :: _ :: r => viRest vb ip true d r
  | vb, ip, true, d, '"' :: r => viRest vb ip false d r
  | vb, ip, true, d, _ :: r => viRest vb ip true d r
  | true, ip, false, d, '"' :: '"' :: r => viRest true ip false d r
  | true, _, false, _, '"' :: l => ([], l)
  | false, _, false, _, ['\\'] => ([], [])
  | false, ip, false, d, '\\' :: _ :: r => viRest false ip false d r
  | false, ip, false, d, '"' :: r =>
    if d = 0 then ([], r)
    else if ip ∧ 0 < d then viRest false ip true d r
    else viRest false ip false d r
  | vb, true, false, d, '{' :: '{' :: r => viRest vb true false d r
  | vb, true, false, d, '{' :: l =>
    let p := viRest vb true false (d + 1) l; ('{' :: p.1, p.2)
  | vb, true, false, d, '}' :: '}' :: r => viRest vb true false d r
  | vb, true, false, d, '}' :: l =>
    let p := viRest vb true false (d - 1) l; ('}' :: p.1, p.2)
  | vb, true, false, d, c :: r =>
    if 0 < d then let p := viRest vb true false d r; (c :: p.1, p.2)
    else if c = '\n' then let p := viRest vb true false d r; ('\n' :: p.1, p.2)
    else viRest vb true false d r
  | vb, false, false, d, c :: r =>
    if c = '\n' then let p := viRest vb false false d r; ('\n' :: p.1, p.2)
    else viRest vb false false d r

/-- Interior of a JS/TS template literal.  Depth `0` is the literal body
(backslash escapes, closing backquote, `$`+brace opens a hole); depth `d+1`
is inside a `$\x7b ... \x7d` hole where braces and newlines are kept. -/
def tplRest : Nat → List Char → List Char × List Char
  | _, [] => ([], [])
  | 0, ['\\'] => ([], [])
  | 0, '\\' :: _ :: r => tplRest 0 r
  | 0, '$' :: '{' :: r => let p := tplRest 1 r; ('{' :: p.1, p.2)
  | 0, '\n' :: r => let p := tplRest 0 r; ('\n' :: p.1, p.2)
  | 0, c :: r => if c = bq then ([], r) else tplRest 0 r
  | d + 1, '{' :: r => let p := tplRest (d + 2) r; ('{' :: p.1, p.2)
  | d + 1, '}' :: r => let p := tplRest d r; ('}' :: p.1, p.2)
  | d + 1, '\n' :: r => let p := tplRest (d + 1) r; ('\n' :: p.1, p.2)
  | d + 1, _ :: r => tplRest (d + 1) r

/-- Main loop of `strip_strings_and_comments`.  The two Bool arguments are
`in_block_comment` and `in_line_comment`; fuel decreases by one per iteration
while at least one character is consumed, so fuel = input length suffices. -/
def scanAux : Nat → Bool → Bool → List Char → List Char
  | 0, _, _, _ => []
  | _ + 1, _, _, [] => []
  | f + 1, true, il, '*' :: '/' :: r => scanAux f false il r
  | f + 1, true, il, '\n' :: r => '\n' :: scanAux f true il r
  | f + 1, true, il, _ :: r => scanAux f true il r
  | f + 1, false, true, '\n' :: r => '\n' :: scanAux f false false r
  | f + 1, false, true, _ :: r => scanAux f false true r
  | f + 1, false, false, '/' :: '*' :: r => scanAux f true false r
  | f + 1, false, false, '/' :: '/' :: r => scanAux f false true r
  | f + 1, false, false, '@' :: '"' :: r =>
    let p := viRest true false false 0 r
    p.1 ++ scanAux f false false p.2
  | f + 1, false, false, '$' :: '"' :: r =>
    let p := viRest false true false 0 r
    p.1 ++ scanAux f false false p.2
  | f + 1, false, false, '$' :: '@' :: '"' :: r =>
    let p := viRest true true false 0 r
    p.1 ++ scanAux f false false p.2
  | f + 1, false, false, '@' :: '$' :: '"' :: r =>
    let p := viRest true true false 0 r
    p.1 ++ scanAux f false false p.2
  | f + 1, false, false, '"' :: r =>
    let p := dqRest r
    p.1 ++ scanAux f false false p.2
  | f + 1, false, false, '\'' :: r =>
    (match charLitClose 5 r with
     | some r2 => scanAux f false false r2
     | none => '\'' :: scanAux f false false r)
  | f + 1, false, false, c :: r =>
    if c = bq then
      let p := tplRest 0 r
      p.1 ++ scanAux f false false p.2
    else c :: scanAux f false false r

/-- `strip_strings_and_comments` on a character list. -/
def strip_list (l : List Char) : List Char := scanAux l.length false false l

/-- `strip_strings_and_comments(text)` of the source, on `String`. -/
def strip_strings_and_comments (s : String) : String := String.mk (strip_list s.data)

/-! ## Balance checker (`check_brace_balance`) -/

/-- `ch in pairs` of the source: an opening bracket. -/
def isOpenB (c : Char) : Bool := c == '{' || c == '(' || c == '['

/-- `ch in close_to_open` of the source: a closing bracket. -/
def isCloseB (c : Char) : Bool := c == '}' || c == ')' || c == ']'

/-- `close_to_open[ch]` of the source. -/
def openOf (c : Char) : Char := if c = '}' then '{' else if c = ')' then '(' else '['

/-- `', '.join(...)`-style join. -/
def joinSep (sep : String) : List String → String
  | [] => ""
  | [s] => s
  | s :: rest => s ++ sep ++ joinSep sep rest

/-- One entry of the unclosed-bracket diagnostic. -/
def quoteAt (c : Char) (n : Nat) : String :=
  "'" ++ String.mk [c] ++ "' at line ~" ++ toString n

/-- Diagnostic for a non-empty stack at end of input.  The source's stack
grows at the tail and is listed as `stack[-5:]`; our stack has its top at the
head, so the same five entries are `(stack.take 5).reverse`. -/
def unclosedMsg (stack : List (Char × Nat)) : String :=
  toString stack.length ++ " unclosed bracket(s): " ++
    joinSep ", " (((stack.take 5).reverse).map (fun p => quoteAt p.1 p.2))

/-- Diagnostic for a close with an empty stack. -/
def unexpectedMsg (ch : Char) (line : Nat) : String :=
  "unexpected '" ++ String.mk [ch] ++ "' at line ~" ++ toString line ++
    " with no matching '" ++ String.mk [openOf ch] ++ "'"

/-- Diagnostic for a close not matching the top of the stack. -/
def mismatchMsg (ch : Char) (line : Nat) (tc : Char) (tl : Nat) : String :=
  "mismatched '" ++ String.mk [ch] ++ "' at line ~" ++ toString line ++
    ", expected closing for '" ++ String.mk [tc] ++ "' opened at line ~" ++ toString tl

/-- The bracket-stack walk of `check_brace_balance`; returns `some msg` on the
first error (or unclosed brackets at the end), `none` on success. -/
def balLoop : List Char → List (Char × Nat) → Nat → Option String
  | [], stack, _ => if stack.isEmpty then none else some (unclosedMsg stack)
  | ch :: rest, stack, line =>
    if ch = '\n' then balLoop rest stack (line + 1)
    else if isOpenB ch then balLoop rest ((ch, line) :: stack) line
    else if isCloseB ch then
      match stack with
      | [] => some (unexpectedMsg ch line)
      | (tc, tl) :: s2 =>
        if tc = openOf ch then balLoop rest s2 line
        else some (mismatchMsg ch line tc tl)
    else balLoop rest stack line

/-- `check_brace_balance(text)`: returns `(ok, message)`. -/
def check_brace_balance (text : List Char) : Bool × String :=
  let cleaned := strip_list text
  match balLoop cleaned [] 1 with
  | some m => (false, m)
  | none => (true, "braces balanced: " ++ toString (cleaned.count '{') ++
      " open, " ++ toString (cleaned.count '}') ++ " close")

/-! ## Edit commands and Python list/slice primitives -/

/-- One parsed edit command (the dicts produced by `LineDiffParser`).  Line
numbers are Python ints, so we use `Int`. -/
inductive Cmd
  | replace (start end_ : Int) (content : String)
  | delete (start count : Int)
  | insert (after : Int) (content : String)
deriving DecidableEq

/-- The sort key `c.get('start', c.get('after', 0))`. -/
def anchorKey : Cmd → Int
  | .replace s _ _ => s
  | .delete s _ => s
  | .insert a _ => a

/-- Insert into a descending-sorted list, after any equal keys: together with
`sortCmdsDesc` this realises Python's stable `sorted(key=..., reverse=True)`. -/
def insertCmdDesc (c : Cmd) : List Cmd → List Cmd
  | [] => [c]
  | x :: xs => if anchorKey c < anchorKey x then x :: insertCmdDesc c xs else c :: x :: xs

/-- Stable descending sort by `anchorKey` (extensionally Python's
`sorted(commands, key=..., reverse=True)`, which is a stable sort). -/
def sortCmdsDesc : List Cmd → List Cmd
  | [] => []
  | c :: cs => insertCmdDesc c (sortCmdsDesc cs)

/-- Normalise a Python slice index against a list of length `n`:
negative indices count from the end, then clamp into `[0, n]`. -/
def pyIndex (n : Nat) (i : Int) : Nat :=
  if i < 0 then ((n : Int) + i).toNat else min i.toNat n

/-- Python slice read `l[s:e]`. -/
def pyGetSlice {α : Type} (l : List α) (s e : Int) : List α :=
  let a := pyIndex l.length s
  let b := max a (pyIndex l.length e)
  (l.take b).drop a

/-- Python slice assignment `l[s:e] = new` (with `del l[s:e]` the case
`new = []`). -/
def pySetSlice {α : Type} (l : List α) (s e : Int) (new : List α) : List α :=
  let a := pyIndex l.length s
  let b := max a (pyIndex l.length e)
  l.take a ++ new ++ l.drop b

/-- `text.split(sep)` of Python for a single-character separator. -/
def splitOnChar (sep : Char) : List Char → List (List Char)
  | [] => [[]]
  | c :: r =>
    if c = sep then [] :: splitOnChar sep r
    else
      match splitOnChar sep r with
      | [] => [[c]]
      | l :: ls => (c :: l) :: ls

/-- `sep.join(parts)` of Python for a single-character separator. -/
def joinOnChar (sep : Char) : List (List Char) → List Char
  | [] => []
  | [l] => l
  | l :: ls => l ++ sep :: joinOnChar sep ls

/-- Python's whitespace test for `str.strip()` (ASCII part; the inputs we
consider contain no non-ASCII whitespace). -/
def isPySpace (c : Char) : Bool :=
  c == ' ' || c == '\t' || c == '\n' || c == '\r' || c == '\x0b' || c == '\x0c'

/-- `text.strip()` of Python. -/
def pyStrip (l : List Char) : List Char :=
  ((l.dropWhile isPySpace).reverse.dropWhile isPySpace).reverse

/-! ## `LineDiffEngine.apply_to_content` -/

def replaceSkipMsg (s e : Int) (n : Nat) : String :=
  "[X] REPLACE " ++ toString s ++ "-" ++ toString e ++ ": start(" ++ toString s ++
    ") > file length(" ++ toString n ++ ")"

def fullBlockMsg (s e : Int) (oc nl : Nat) : String :=
  "[BLOCK] REPLACE " ++ toString s ++ "-" ++ toString e ++ ": full replace would reduce " ++
    toString oc ++ " -> " ++ toString nl ++ " lines"

def replaceOkMsg (s e : Int) (old : Int) (new : Nat) : String :=
  "[OK] REPLACE " ++ toString s ++ "-" ++ toString e ++ " (" ++ toString old ++
    "lines -> " ++ toString new ++ "lines)"

def braceBlockMsg (s e : Int) (m : String) : String :=
  "[BLOCK] REPLACE " ++ toString s ++ "-" ++ toString e ++ ": brace imbalance - " ++ m

def rollbackMsg (s e : Int) : String :=
  "[ROLLBACK] REPLACE " ++ toString s ++ "-" ++ toString e ++ " reverted due to brace imbalance"

def deleteSkipMsg (s : Int) (n : Nat) : String :=
  "[X] DELETE " ++ toString s ++ ": start(" ++ toString s ++ ") > file length(" ++ toString n ++ ")"

def deleteOkMsg (s c : Int) (a : Int) : String :=
  "[OK] DELETE " ++ toString s ++ " x" ++ toString c ++ " (" ++ toString a ++ "lines removed)"

def insertOkMsg (a : Int) (n : Nat) : String :=
  "[OK] INSERT after " ++ toString a ++ " (" ++ toString n ++ "lines added)"

def summaryMsg (ok er tot : Nat) : String :=
  "Result: " ++ toString ok ++ " ok, " ++ toString er ++ " errors / " ++ toString tot ++ " total"

def sizeBlockMsg (pct : Nat) : String :=
  "[BLOCK] result is only " ++ toString pct ++ "% of original -> keeping original"

/-- One iteration of the command loop of `apply_to_content`: the current line
buffer, the command, and the result buffer together with this command's log
lines and whether it counted as `ok` (`true`) or as an error (`false`).
`b` is the `do_brace` flag, `oc` the original line count `orig_count`.
The comparison `len(new_lines) < orig_count * 0.1` of the source is embedded
as the exact rational comparison `len * 10 < orig_count`. -/
def applyOne (b : Bool) (oc : Nat) (lines : List (List Char)) :
    Cmd → List (List Char) × List String × Bool
  | .replace start end_ content =>
    let n : Int := lines.length
    let s : Int := if start - 1 < 0 then 0 else start - 1
    let e : Int := if end_ > n then n else end_
    if s > n then (lines, [replaceSkipMsg start end_ lines.length], false)
    else
      let new_lines := splitOnChar '\n' content.data
      if start ≤ 1 ∧ end_ ≥ (oc : Int) ∧ 10 < oc ∧ new_lines.length * 10 < oc then
        (lines, [fullBlockMsg start end_ oc new_lines.length], false)
      else
        let saved_old := pyGetSlice lines s e
        let lines2 := pySetSlice lines s e new_lines
        if b then
          let chk := check_brace_balance (joinOnChar '\n' lines2)
          if chk.1 then (lines2, [replaceOkMsg start end_ (e - s) new_lines.length], true)
          else
            (pySetSlice lines2 s (s + new_lines.length) saved_old,
             [braceBlockMsg start end_ chk.2, rollbackMsg start end_], false)
        else (lines2, [replaceOkMsg start end_ (e - s) new_lines.length], true)
  | .delete start count =>
    let n : Int := lines.length
    let s : Int := if start - 1 < 0 then 0 else start - 1
    if s ≥ n then (lines, [deleteSkipMsg start lines.length], false)
    else
      let e : Int := if s + count < n then s + count else n
      (pySetSlice lines s e [], [deleteOkMsg start count (e - s)], true)
  | .insert after content =>
    let n : Int := lines.length
    let pos : Int := if after < 0 then 0 else if after > n then n else after
    let new_lines := splitOnChar '\n' content.data
    (pySetSlice lines pos pos new_lines, [insertOkMsg after new_lines.length], true)

/-- The whole command loop: final buffer, log lines in order, and the `ok` /
`errors` counters. -/
def applyLoop (b : Bool) (oc : Nat) : List (List Char) → List Cmd →
    List (List Char) × List String × Nat × Nat
  | lines, [] => (lines, [], 0, 0)
  | lines, c :: cs =>
    let step := applyOne b oc lines c
    let rest := applyLoop b oc step.1 cs
    (rest.1, step.2.1 ++ rest.2.1,
     (if step.2.2 then 1 else 0) + rest.2.2.1,
     (if step.2.2 then 0 else 1) + rest.2.2.2)

/-- The joined text after running the command loop (the `result` local of the
source just before the two final gates). -/
def appliedResult (original : List Char) (commands : List Cmd) (b : Bool) : List Char :=
  joinOnChar '\n'
    (applyLoop b (splitOnChar '\n' original).length (splitOnChar '\n' original)
      (sortCmdsDesc commands)).1

/-- `LineDiffEngine.apply_to_content(original, commands)`.  `do_brace` stands
for the source's `self._current_filepath is not None and
is_brace_language(self._current_filepath)`, which is fixed before the loop.
The comparison `result_len < orig_len * 0.1` is embedded as the exact rational
comparison `result_len * 10 < orig_len`. -/
def apply_to_content (original : List Char) (commands : List Cmd) (do_brace : Bool) :
    List Char × List String :=
  if commands = [] then (original, ["[!] no changes"])
  else
    let file_lines := splitOnChar '\n' original
    let orig_count := file_lines.length
    let loopRes := applyLoop do_brace orig_count file_lines (sortCmdsDesc commands)
    let msgs := summaryMsg loopRes.2.2.1 loopRes.2.2.2 commands.length :: loopRes.2.1
    let result := joinOnChar '\n' loopRes.1
    let orig_len := (pyStrip original).length
    let result_len := (pyStrip result).length
    if 200 < orig_len ∧ result_len * 10 < orig_len then
      (original, msgs ++ [sizeBlockMsg (result_len * 100 / orig_len)])
    else if do_brace then
      let chk := check_brace_balance result
      if chk.1 then (result, msgs ++ ["[BRACE OK] " ++ chk.2])
      else
        (original, msgs ++ ["[BLOCK] FINAL brace check failed: " ++ chk.2,
          "[BLOCK] entire patch rejected - keeping original file"])
    else (result, msgs)

/-- Does the log contain a message starting with `tag`? -/
def listStarts : List Char → List Char → Bool
  | [], _ => true
  | _ :: _, [] => false
  | a :: as_, b :: bs => a == b && listStarts as_ bs

def hasTag (tag : String) (msgs : List String) : Bool :=
  msgs.any (fun m => listStarts tag.data m.data)

/-! ## `LineDiffEngine._resolve` -/

/-- `path.replace('\\', '/')`. -/
def normSlash (l : List Char) : List Char := l.map (fun c => if c = '\\' then '/' else c)

/-- `path.strip('/')`. -/
def stripSlash (l : List Char) : List Char :=
  ((l.dropWhile (· == '/')).reverse.dropWhile (· == '/')).reverse

/-- `path.lower()` (ASCII; the inputs we consider are ASCII). -/
def lowerL (l : List Char) : List Char := l.map Char.toLower

/-- `l1.endswith(l2)` of Python. -/
def endsW (l suffix_ : List Char) : Bool := listStarts suffix_.reverse l.reverse

/-- The overlap score: `sum(1 for x, y in zip(reversed(rp), reversed(np)) if x == y)`. -/
def countRevEq (a b : List (List Char)) : Nat :=
  ((a.reverse.zip b.reverse).countP (fun p => p.1 == p.2))

/-- The scoring loop over ambiguous filename candidates: the first strict
improvement wins (`if ov > bo`), starting from `best = None, bo = 0`. -/
def bestOf (nl : List Char) (cands : List (List Char × List Char)) : Option (List Char) :=
  (cands.foldl (fun acc ra =>
    let ov := countRevEq (splitOnChar '/' (lowerL (normSlash ra.1))) (splitOnChar '/' nl)
    if acc.2 < ov then (some ra.2, ov) else acc) ((none : Option (List Char)), 0)).1

/-- `LineDiffEngine._resolve(fp, pm)`.  The Python dict `pm` iterates in
insertion order, embedded as an association list.  The source's `if best:`
is Python truthiness: `None` and the empty string are both falsy. -/
def _resolve (fp : List Char) (pm : List (List Char × List Char)) : Option (List Char) :=
  if fp = [] ∨ pm = [] then none
  else
    let norm := stripSlash (normSlash fp)
    let nl := lowerL norm
    match pm.find? (fun ra => stripSlash (normSlash ra.1) == norm) with
    | some ra => some ra.2
    | none =>
    match pm.find? (fun ra => lowerL (stripSlash (normSlash ra.1)) == nl) with
    | some ra => some ra.2
    | none =>
    let fn := (splitOnChar '/' nl).getLastD []
    let cands := pm.filter
      (fun ra => lowerL ((splitOnChar '/' (normSlash ra.1)).getLastD []) == fn)
    let viaCands : Option (List Char) :=
      match cands with
      | [ra] => some ra.2
      | _ :: _ :: _ =>
        (match bestOf nl cands with
         | some a => if a = [] then none else some a
         | none => none)
      | [] => none
    match viaCands with
    | some a => some a
    | none =>
      (pm.find? (fun ra =>
        endsW (lowerL (normSlash ra.1)) nl || endsW nl (lowerL (normSlash ra.1)))).map (·.2)

/-- The 5-line original of the spec's balance-rollback example (C2). -/
def c2orig : List Char := ("class A \x7b\n  void M() \x7b\n    int x = 0;\n  \x7d\n\x7d").data

/-- The replace of line 3 that introduces one extra closing brace (C2). -/
def c2cmd : Cmd := .replace 3 3 "    int x = 0;\n  \x7d"

/-- A 210-character text whose stripped length is only 150 (C4). -/
def c4orig : List Char := List.replicate 150 'x' ++ List.replicate 60 ' '

example : strip_strings_and_comments "x = \"hello\";" = "x = ;" := by decide
example : ('{' ∈ (strip_strings_and_comments "x = $\"count: \x7bn\x7d\";").data) := by decide
example : strip_strings_and_comments "x = $\"literal \x7b\x7bbrace\x7d\x7d\";" = "x = ;" := by decide
example : strip_strings_and_comments "a /* b */ c" = "a  c" := by decide
example : strip_strings_and_comments "a // b\nc" = "a \nc" := by decide
example : strip_strings_and_comments "x = '\x7b';" = "x = ;" := by decide
example : strip_strings_and_comments "\"\\\n\"" = "" := by decide

/-! ## The scanner only ever emits characters of its input, in order:
every scanner sub-loop satisfies `output ++ remainder <+ input`, and the main
loop's output is a sublist (subsequence) of its input. -/

theorem charLitClose_sublist : ∀ (b : Nat) (l r : List Char),
    charLitClose b l = some r → r.Sublist l
  | b, l => by
    rw [charLitClose.eq_def]
    split
    · simp
    · simp
    · simp
    · simp
    · intro r2 h
      exact ((charLitClose_sublist _ _ r2 h).cons _).cons _
    · intro r2 h
      cases h
      exact (List.Sublist.refl _).cons _
    · simp
    · intro r2 h
      exact (charLitClose_sublist _ _ r2 h).cons _
termination_by b => b

theorem dqRest_sublist : ∀ (l : List Char), ((dqRest l).1 ++ (dqRest l).2).Sublist l
  | l => by
    rw [dqRest.eq_def]
    split
    · simp
    · simp
    · exact ((dqRest_sublist _).cons _).cons _
    · simpa using (List.Sublist.refl _).cons _
    · exact (dqRest_sublist _).cons₂ _
    · exact (dqRest_sublist _).cons _
termination_by l => l.length

theorem viRest_sublist : ∀ (vb ip nst : Bool) (d : Int) (l : List Char),
    ((viRest vb ip nst d l).1 ++ (viRest vb ip nst d l).2).Sublist l
  | vb, ip, nst, d, l => by
    rw [viRest.eq_def]
    split
    · simp
    · simp
    · exact ((viRest_sublist _ _ _ _ _).cons _).cons _
    · exact (viRest_sublist _ _ _ _ _).cons _
    · exact (viRest_sublist _ _ _ _ _).cons _
    · exact ((viRest_sublist _ _ _ _ _).cons _).cons _
    · simpa using (List.Sublist.refl _).cons _
    · simp
    · exact ((viRest_sublist _ _ _ _ _).cons _).cons _
    · split
      · simpa using (List.Sublist.refl _).cons _
      · split
        · exact (viRest_sublist _ _ _ _ _).cons _
        · exact (viRest_sublist _ _ _ _ _).cons _
    · exact ((viRest_sublist _ _ _ _ _).cons _).cons _
    · exact (viRest_sublist _ _ _ _ _).cons₂ _
    · exact ((viRest_sublist _ _ _ _ _).cons _).cons _
    · exact (viRest_sublist _ _ _ _ _).cons₂ _
    · split
      · exact (viRest_sublist _ _ _ _ _).cons₂ _
      · split
        · next _ h => subst h; exact (viRest_sublist _ _ _ _ _).cons₂ _
        · exact (viRest_sublist _ _ _ _ _).cons _
    · split
      · next h => subst h; exact (viRest_sublist _ _ _ _ _).cons₂ _
      · exact (viRest_sublist _ _ _ _ _).cons _
termination_by _ _ _ _ l => l.length

theorem tplRest_sublist : ∀ (d : Nat) (l : List Char),
    ((tplRest d l).1 ++ (tplRest d l).2).Sublist l
  | d, l => by
    rw [tplRest.eq_def]
    split
    · simp
    · simp
    · exact ((tplRest_sublist 0 _).cons _).cons _
    · exact ((tplRest_sublist 1 _).cons₂ _).cons _
    · exact (tplRest_sublist 0 _).cons₂ _
    · split
      · simpa using (List.Sublist.refl _).cons _
      · exact (tplRest_sublist 0 _).cons _
    · exact (tplRest_sublist _ _).cons₂ _
    · exact (tplRest_sublist _ _).cons₂ _
    · exact (tplRest_sublist _ _).cons₂ _
    · exact (tplRest_sublist _ _).cons _
termination_by d l => l.length

/-- Chain a sub-loop's `output ++ remainder <+ input` with the main loop's
sublist property on the remainder. -/
theorem append_chain {p1 p2 s l : List Char} (hp : (p1 ++ p2).Sublist l)
    (hs : s.Sublist p2) : (p1 ++ s).Sublist l :=
  (hs.append_left p1).trans hp

theorem scanAux_sublist : ∀ (f : Nat) (ib il : Bool) (l : List Char),
    (scanAux f ib il l).Sublist l
  | f, ib, il, l => by
    rw [scanAux.eq_def]
    split
    · simp
    · simp
    · exact ((scanAux_sublist _ _ _ _).cons _).cons _
    · exact (scanAux_sublist _ _ _ _).cons₂ _
    · exact (scanAux_sublist _ _ _ _).cons _
    · exact (scanAux_sublist _ _ _ _).cons₂ _
    · exact (scanAux_sublist _ _ _ _).cons _
    · exact ((scanAux_sublist _ _ _ _).cons _).cons _
    · exact ((scanAux_sublist _ _ _ _).cons _).cons _
    · exact ((append_chain (viRest_sublist _ _ _ _ _) (scanAux_sublist _ _ _ _)).cons _).cons _
    · exact ((append_chain (viRest_sublist _ _ _ _ _) (scanAux_sublist _ _ _ _)).cons _).cons _
    · exact (((append_chain (viRest_sublist _ _ _ _ _) (scanAux_sublist _ _ _ _)).cons _).cons _).cons _
    · exact (((append_chain (viRest_sublist _ _ _ _ _) (scanAux_sublist _ _ _ _)).cons _).cons _).cons _
    · exact (append_chain (dqRest_sublist _) (scanAux_sublist _ _ _ _)).cons _
    · split
      · next r r2 heq =>
        exact ((scanAux_sublist _ _ _ _).trans (charLitClose_sublist _ _ _ heq)).cons _
      · exact (scanAux_sublist _ _ _ _).cons₂ _
    · split
      · exact (append_chain (tplRest_sublist _ _) (scanAux_sublist _ _ _ _)).cons _
      · exact (scanAux_sublist _ _ _ _).cons₂ _
termination_by f => f

/-- The scanner's output is a subsequence of its input. -/
theorem strip_list_sublist (l : List Char) : (strip_list l).Sublist l :=
  scanAux_sublist l.length false false l

/-! ## Support lemmas for the claim theorems -/

theorem data_append (s t : String) : (s ++ t).data = s.data ++ t.data := by
  cases s; cases t; rfl

theorem listStarts_append_left : ∀ (t a r : List Char),
    listStarts t a = true → listStarts t (a ++ r) = true
  | [], _, _, _ => rfl
  | _ :: _, [], _, h => by simp [listStarts] at h
  | x :: xs, y :: ys, r, h => by
    simp only [listStarts, Bool.and_eq_true] at h ⊢
    exact ⟨h.1, listStarts_append_left xs ys r h.2⟩

theorem hasTag_append_last (tag : String) (ms : List String) (m : String)
    (h : listStarts tag.data m.data = true) : hasTag tag (ms ++ [m]) = true := by
  simp [hasTag, List.any_append, h]

theorem sizeBlock_starts (pct : Nat) :
    listStarts ("[BLOCK]").data (sizeBlockMsg pct).data = true := by
  have h : (sizeBlockMsg pct).data =
      ("[BLOCK] result is only ").data ++
        ((toString pct).data ++ ("% of original -> keeping original").data) := by
    simp [sizeBlockMsg, data_append]
  rw [h]
  exact listStarts_append_left _ _ _ (by decide)

theorem splitOnChar_ne_nil (sep : Char) (l : List Char) : splitOnChar sep l ≠ [] := by
  cases l with
  | nil => simp [splitOnChar]
  | cons c r =>
    rw [splitOnChar]
    split_ifs
    · simp
    · cases hs : splitOnChar sep r <;> simp

theorem joinOnChar_splitOnChar (sep : Char) (l : List Char) :
    joinOnChar sep (splitOnChar sep l) = l := by
  induction l with
  | nil => rfl
  | cons c r ih =>
    rw [splitOnChar]
    split_ifs with hc
    · subst hc
      rcases hs : splitOnChar c r with _ | ⟨a, as⟩
      · exact absurd hs (splitOnChar_ne_nil c r)
      · rw [hs] at ih
        simpa [joinOnChar] using ih
    · rcases hs : splitOnChar sep r with _ | ⟨a, as⟩
      · exact absurd hs (splitOnChar_ne_nil sep r)
      · rw [hs] at ih
        cases as with
        | nil => simpa [joinOnChar] using ih
        | cons b bs => simpa [joinOnChar] using ih

/-! ## The claims -/

/-- C1: with the balance gate enabled, `apply_to_content` returns either the
original text byte-for-byte or a result that passes `check_brace_balance`;
it never returns changed content that fails the balance check. -/
theorem c1_balance_gate_sound (original : List Char) (commands : List Cmd) :
    (apply_to_content original commands true).1 = original ∨
      (check_brace_balance (apply_to_content original commands true).1).1 = true := by
  by_cases hc : commands = []
  · subst hc
    exact Or.inl rfl
  · simp only [apply_to_content]
    rw [if_neg hc]
    split_ifs with h1 h2
    · exact Or.inl rfl
    · exact Or.inr h2
    · exact Or.inl rfl

/-- C2: the spec's balance-rollback example: replacing line 3 of the 5-line
class file with two lines carrying an extra closing brace is rejected with the
balance gate on; the original text comes back unchanged (the splice is rolled
back exactly) and the log carries both a `[BLOCK]` and a `[ROLLBACK]` line. -/
theorem c2_balance_rollback_example :
    (apply_to_content c2orig [c2cmd] true).1 = c2orig ∧
      hasTag "[BLOCK]" (apply_to_content c2orig [c2cmd] true).2 = true ∧
      hasTag "[ROLLBACK]" (apply_to_content c2orig [c2cmd] true).2 = true := by
  exact ⟨by decide, by decide, by decide⟩

/-- C3 counterexample: a Replace whose `start` equals the line count plus one
(start 4 on a 3-line buffer) is NOT skipped: the source's guard tests
`start - 1 > len(file_lines)`, so this command splices its content at the end
of the buffer, mutates it, reports `[OK]` and records no error. -/
theorem c3_out_of_range_counterexample :
    (apply_to_content ("l1\nl2\nl3").data [Cmd.replace 4 4 "x"] false).1
        = ("l1\nl2\nl3\nx").data ∧
      (apply_to_content ("l1\nl2\nl3").data [Cmd.replace 4 4 "x"] false).1
        ≠ ("l1\nl2\nl3").data ∧
      hasTag "[X]" (apply_to_content ("l1\nl2\nl3").data [Cmd.replace 4 4 "x"] false).2
        = false ∧
      hasTag "[OK]" (apply_to_content ("l1\nl2\nl3").data [Cmd.replace 4 4 "x"] false).2
        = true := by
  exact ⟨by decide, by decide, by decide, by decide⟩

/-- C3 (amended): a Replace is skipped with a recorded error and no mutation
exactly when its `start` exceeds the current line count plus one (the source
tests `start - 1 > len(file_lines)`); at `start` = line count + 1 the command
is instead applied, splicing its content at the end of the buffer. -/
theorem c3_replace_beyond_end_skipped (b : Bool) (oc : Nat) (lines : List (List Char))
    (start end_ : Int) (content : String)
    (h : (lines.length : Int) < start - 1) :
    applyOne b oc lines (.replace start end_ content) =
      (lines, [replaceSkipMsg start end_ lines.length], false) := by
  simp only [applyOne]
  rw [if_neg (by omega : ¬ start - 1 < 0)]
  rw [if_pos h]

theorem c3_replace_beyond_end_skipped_witness :
    applyOne false 0 [['a']] (.replace 3 3 "x") =
      ([['a']], [replaceSkipMsg 3 3 1], false) :=
  c3_replace_beyond_end_skipped false 0 [['a']] 3 3 "x" (by decide)

/-- C4 counterexample: the whole-result size gate compares the lengths of the
*whitespace-stripped* texts, not the raw lengths.  This original text is 210
characters long (over 200), the result "y" is far under 10% of that, yet the
batch is not discarded: after `strip()` the original is only 150 characters,
under the 200-character threshold. -/
theorem c4_size_gate_counterexample :
    200 < c4orig.length ∧
      (apply_to_content c4orig [Cmd.replace 1 1 "y"] false).1.length * 10 < c4orig.length ∧
      (apply_to_content c4orig [Cmd.replace 1 1 "y"] false).1 ≠ c4orig ∧
      hasTag "[BLOCK]" (apply_to_content c4orig [Cmd.replace 1 1 "y"] false).2 = false := by
  exact ⟨by decide, by decide, by decide, by decide⟩

/-- C4 (amended): with lengths measured on the whitespace-stripped texts (the
source compares `len(original.strip())` with `len(result.strip())`): if the
stripped original exceeds 200 characters and the stripped joined result is
under 10% of its length, the whole batch is discarded, the original text is
returned and a `[BLOCK]` message is appended to the log. -/
theorem c4_size_gate_stripped (original : List Char) (commands : List Cmd) (b : Bool)
    (h200 : 200 < (pyStrip original).length)
    (hsmall : (pyStrip (appliedResult original commands b)).length * 10 <
      (pyStrip original).length) :
    (apply_to_content original commands b).1 = original ∧
      hasTag "[BLOCK]" (apply_to_content original commands b).2 = true := by
  by_cases hc : commands = []
  · subst hc
    rw [appliedResult] at hsmall
    simp only [sortCmdsDesc, applyLoop] at hsmall
    rw [joinOnChar_splitOnChar] at hsmall
    omega
  · rw [appliedResult] at hsmall
    simp only [apply_to_content]
    rw [if_neg hc]
    rw [if_pos ⟨h200, hsmall⟩]
    exact ⟨rfl, hasTag_append_last _ _ _ (sizeBlock_starts _)⟩

theorem c4_size_gate_stripped_witness :
    (apply_to_content (List.replicate 201 'x') [Cmd.replace 1 1 "y"] false).1
        = List.replicate 201 'x' ∧
      hasTag "[BLOCK]"
        (apply_to_content (List.replicate 201 'x') [Cmd.replace 1 1 "y"] false).2 = true :=
  c4_size_gate_stripped (List.replicate 201 'x') [Cmd.replace 1 1 "y"] false
    (by decide) (by decide)

/-- C5: the per-command destructive-truncation guard.  First conjunct: the
spec's example — replacing the full range 1..11 of an 11-line file with one
line is blocked, the original is returned unchanged and the log has a
`[BLOCK]` entry.  Second conjunct: the guard fires whenever `start ≤ 1`,
`end ≥ original line count`, the original has more than 10 lines and the
replacement has fewer than 10% of the original line count. -/
theorem c5_full_range_truncation_guard :
    ((apply_to_content ("1\n2\n3\n4\n5\n6\n7\n8\n9\n10\n11").data
          [Cmd.replace 1 11 "x"] false).1 = ("1\n2\n3\n4\n5\n6\n7\n8\n9\n10\n11").data ∧
      hasTag "[BLOCK]" (apply_to_content ("1\n2\n3\n4\n5\n6\n7\n8\n9\n10\n11").data
          [Cmd.replace 1 11 "x"] false).2 = true) ∧
    ∀ (b : Bool) (oc : Nat) (lines : List (List Char)) (start end_ : Int) (content : String),
      start ≤ 1 → (oc : Int) ≤ end_ → 10 < oc →
      (splitOnChar '\n' content.data).length * 10 < oc →
      applyOne b oc lines (.replace start end_ content) =
        (lines, [fullBlockMsg start end_ oc (splitOnChar '\n' content.data).length], false) := by
  constructor
  · exact ⟨by decide, by decide⟩
  · intro b oc lines start end_ content h1 h2 h3 h4
    simp only [applyOne]
    by_cases hneg : start - 1 < 0
    · rw [if_pos hneg, if_neg (show ¬ (0 : Int) > (lines.length : Int) by omega),
        if_pos ⟨h1, h2, h3, h4⟩]
    · rw [if_neg hneg, if_neg (show ¬ start - 1 > (lines.length : Int) by omega),
        if_pos ⟨h1, h2, h3, h4⟩]

theorem c5_full_range_truncation_guard_witness :
    applyOne true 12 [] (.replace 1 12 "y") = ([], [fullBlockMsg 1 12 12 1], false) := by
  have h := c5_full_range_truncation_guard.2 true 12 [] 1 12 "y"
    (by decide) (by decide) (by decide) (by decide)
  simpa using h

/-- C6: applying `[Replace(2,2,"a"), Replace(4,4,"b")]` to `"1\n2\n3\n4\n5"`
(balance gate off) yields `"1\na\n3\nb\n5"` in both input orders, because the
engine re-sorts commands by descending anchor line before applying them. -/
theorem c6_descending_order_independence :
    (apply_to_content ("1\n2\n3\n4\n5").data
        [Cmd.replace 2 2 "a", Cmd.replace 4 4 "b"] false).1 = ("1\na\n3\nb\n5").data ∧
      (apply_to_content ("1\n2\n3\n4\n5").data
        [Cmd.replace 4 4 "b", Cmd.replace 2 2 "a"] false).1 = ("1\na\n3\nb\n5").data := by
  exact ⟨by decide, by decide⟩

/-- C7 counterexample: scanning the 4-character text quote-backslash-newline-
quote loses its newline: a backslash inside an ordinary string skips the
following character even when it is a line break, so the output has 0 newlines
while the input has 1. -/
theorem c7_newline_counterexample :
    ¬ ((strip_strings_and_comments "\"\\\n\"").data.count '\n' =
        ("\"\\\n\"" : String).data.count '\n') := by decide

/-- C7 (amended): the scanner never invents line breaks — the number of
newline characters in the output is at most the number in the input.  Exact
preservation fails only where a backslash escape inside a string or template
literal (or a nested string inside an interpolation hole) consumes a newline. -/
theorem c7_newlines_nonincreasing (s : String) :
    (strip_strings_and_comments s).data.count '\n' ≤ s.data.count '\n' :=
  (strip_list_sublist s.data).count_le '\n'

/-- C8: scanning `x = $"count: {n}";` keeps both interpolation-hole braces,
while scanning `x = $"literal {{brace}}";` keeps neither (doubled braces are
escapes and are dropped). -/
theorem c8_interpolation_holes :
    ('{' ∈ (strip_strings_and_comments "x = $\"count: \x7bn\x7d\";").data ∧
      '}' ∈ (strip_strings_and_comments "x = $\"count: \x7bn\x7d\";").data) ∧
    ('{' ∉ (strip_strings_and_comments "x = $\"literal \x7b\x7bbrace\x7d\x7d\";").data ∧
      '}' ∉ (strip_strings_and_comments "x = $\"literal \x7b\x7bbrace\x7d\x7d\";").data) := by
  exact ⟨⟨by decide, by decide⟩, ⟨by decide, by decide⟩⟩

/-- C9: with known paths `src/a/util.cs ↦ A` and `src/b/util.cs ↦ B`, the
declared path `b/util.cs` resolves to `B`: among candidates sharing the
filename, the deepest matching trailing-segment overlap wins. -/
theorem c9_deepest_suffix_wins :
    _resolve ("b/util.cs").data
        [(("src/a/util.cs").data, ("A").data), (("src/b/util.cs").data, ("B").data)]
      = some ("B").data := by decide

/-- C10: the scanner's output is a subsequence of its input: every output
character is one of the input's characters, at strictly increasing positions;
scanning never invents characters not present in the source. -/
theorem c10_scanner_subsequence (s : String) :
    (strip_strings_and_comments s).data.Sublist s.data :=
  strip_list_sublist s.data
